import Mathlib

/-!
Formal model of `src/scripts/fetch-blog-posts.py`.

The script fetches RSS feeds, parses them with `xml.etree.ElementTree`,
optionally filters items by Dublin-Core creator, normalizes the `pubDate`
via `datetime.strptime(..., "%a, %d %b %Y %H:%M:%S %z").isoformat()`,
applies per-source limits, sorts the aggregate by date descending and
serializes it with `json.dump(..., ensure_ascii=False, indent=2)`.

Effectful library calls are embedded as explicit data: the outcome of
`urlopen` + `ET.fromstring` for a URL is a value of
`Except String (Option Element)` (fetch error, malformed XML, or a parsed
element tree), and the YAML document of `load_config` is a value of
`Except String Yaml`.  Python string primitives (`str.strip`, `str.lower`,
string comparison) and the CPython `_strptime` engine for the fixed format
are modelled directly over `List Char`.
-/

namespace BlogPosts

/-- Python `\s` / `str.strip` whitespace characters (ASCII range):
space, tab, newline, carriage return, vertical tab, form feed. -/
def pyWs (c : Char) : Bool :=
  c.toNat = 32 || c.toNat = 9 || c.toNat = 10 || c.toNat = 13 || c.toNat = 11 || c.toNat = 12

/-- Python `str.strip()` on the character list: drop leading and trailing
whitespace. -/
def stripL (l : List Char) : List Char :=
  ((l.dropWhile pyWs).reverse.dropWhile pyWs).reverse

/-- Python `str.strip()`: drop leading and trailing whitespace. -/
def pyStrip (s : String) : String := ⟨stripL s.data⟩

/-- Python `str.lower()` (ASCII letters; other characters unchanged). -/
def pyLower (s : String) : String :=
  ⟨s.data.map Char.toLower⟩

/-- Python string comparison `a < b`: lexicographic on code points. -/
def lexLt : List Char → List Char → Bool
  | [], [] => false
  | [], _ :: _ => true
  | _ :: _, [] => false
  | a :: as, b :: bs =>
    if a.toNat < b.toNat then true
    else if b.toNat < a.toNat then false
    else lexLt as bs

/-! ### CPython `_strptime` for the fixed format `"%a, %d %b %Y %H:%M:%S %z"`

The format compiles (cf. `Lib/_strptime.py`, re.IGNORECASE) to the regex

  `(?P<a>mon|tue|...),\s+(?P<d>3[0-1]|[1-2]\d|0[1-9]|[1-9])\s+(?P<b>jan|...)\s+`
  `(?P<Y>\d\d\d\d)\s+(?P<H>2[0-3]|[0-1]\d|\d):(?P<M>[0-5]\d|\d):(?P<S>6[0-1]|[0-5]\d|\d)\s+`
  `(?P<z>[+-]\d\d:?[0-5]\d(:?[0-5]\d(\.\d{1,6})?)?|(?-i:Z))`

anchored at the start, and the whole input must be consumed.  The matched
fields are then validated by the `datetime` constructor (year ≥ 1, day
within the month, second ≤ 59, |utc offset| < 24h). -/

def isDigitC (c : Char) : Bool := 48 ≤ c.toNat && c.toNat ≤ 57

/-- Numeric value of a digit character. -/
def dval (c : Char) : Nat := c.toNat - 48

/-- Consume a literal character. -/
def expectChar (c : Char) : List Char → Option (List Char)
  | x :: xs => if x = c then some xs else none
  | [] => none

/-- Consume one mandatory whitespace character and any further run of
whitespace (a format-string blank becomes `\s+`). -/
def skipWs1 : List Char → Option (List Char)
  | c :: cs => if pyWs c then some (cs.dropWhile pyWs) else none
  | [] => none

/-- Consume a fixed token case-insensitively (the token is lowercase). -/
def matchTok : List Char → List Char → Option (List Char)
  | [], rest => some rest
  | t :: ts, c :: cs => if (Char.toLower c).toNat = t.toNat then matchTok ts cs else none
  | _ :: _, [] => none

/-- Try a list of tokens in order; return the index of the first match. -/
def matchFirstAux (i : Nat) : List (List Char) → List Char → Option (Nat × List Char)
  | [], _ => none
  | t :: ts, cs =>
    match matchTok t cs with
    | some rest => some (i, rest)
    | none => matchFirstAux (i + 1) ts cs

def weekdayToks : List (List Char) :=
  ["mon", "tue", "wed", "thu", "fri", "sat", "sun"].map String.data

def monthToks : List (List Char) :=
  ["jan", "feb", "mar", "apr", "may", "jun", "jul", "aug", "sep", "oct", "nov", "dec"].map String.data

/-- Day of month, regex `3[0-1]|[1-2]\d|0[1-9]|[1-9]` (alternatives in order). -/
def parse_d : List Char → Option (Nat × List Char)
  | c1 :: c2 :: rest =>
    if c1 = '3' ∧ (c2 = '0' ∨ c2 = '1') then some (30 + dval c2, rest)
    else if (c1 = '1' ∨ c1 = '2') ∧ isDigitC c2 then some (dval c1 * 10 + dval c2, rest)
    else if c1 = '0' ∧ ('1' ≤ c2 ∧ c2 ≤ '9') then some (dval c2, rest)
    else if '1' ≤ c1 ∧ c1 ≤ '9' then some (dval c1, c2 :: rest)
    else none
  | [c1] => if '1' ≤ c1 ∧ c1 ≤ '9' then some (dval c1, []) else none
  | [] => none

/-- Year, regex `\d\d\d\d` (exactly four digits). -/
def parse_Y : List Char → Option (Nat × List Char)
  | c1 :: c2 :: c3 :: c4 :: rest =>
    if isDigitC c1 ∧ isDigitC c2 ∧ isDigitC c3 ∧ isDigitC c4 then
      some (dval c1 * 1000 + dval c2 * 100 + dval c3 * 10 + dval c4, rest)
    else none
  | _ => none

/-- Hour, regex `2[0-3]|[0-1]\d|\d`. -/
def parse_H : List Char → Option (Nat × List Char)
  | c1 :: c2 :: rest =>
    if c1 = '2' ∧ ('0' ≤ c2 ∧ c2 ≤ '3') then some (20 + dval c2, rest)
    else if (c1 = '0' ∨ c1 = '1') ∧ isDigitC c2 then some (dval c1 * 10 + dval c2, rest)
    else if isDigitC c1 then some (dval c1, c2 :: rest)
    else none
  | [c1] => if isDigitC c1 then some (dval c1, []) else none
  | [] => none

/-- Minute, regex `[0-5]\d|\d`. -/
def parse_M : List Char → Option (Nat × List Char)
  | c1 :: c2 :: rest =>
    if ('0' ≤ c1 ∧ c1 ≤ '5') ∧ isDigitC c2 then some (dval c1 * 10 + dval c2, rest)
    else if isDigitC c1 then some (dval c1, c2 :: rest)
    else none
  | [c1] => if isDigitC c1 then some (dval c1, []) else none
  | [] => none

/-- Second, regex `6[0-1]|[0-5]\d|\d` (leap seconds match the regex but are
rejected later by the `datetime` constructor). -/
def parse_S : List Char → Option (Nat × List Char)
  | c1 :: c2 :: rest =>
    if c1 = '6' ∧ (c2 = '0' ∨ c2 = '1') then some (60 + dval c2, rest)
    else if ('0' ≤ c1 ∧ c1 ≤ '5') ∧ isDigitC c2 then some (dval c1 * 10 + dval c2, rest)
    else if isDigitC c1 then some (dval c1, c2 :: rest)
    else none
  | [c1] => if isDigitC c1 then some (dval c1, []) else none
  | [] => none

/-- Exactly two digits, regex `\d\d`. -/
def parse2d : List Char → Option (Nat × List Char)
  | c1 :: c2 :: rest =>
    if isDigitC c1 ∧ isDigitC c2 then some (dval c1 * 10 + dval c2, rest) else none
  | _ => none

/-- Two digits the first of which is 0-5, regex `[0-5]\d`. -/
def parse2d05 : List Char → Option (Nat × List Char)
  | c1 :: c2 :: rest =>
    if ('0' ≤ c1 ∧ c1 ≤ '5') ∧ isDigitC c2 then some (dval c1 * 10 + dval c2, rest) else none
  | _ => none

/-- Take up to `n` leading digits. -/
def takeDigits : Nat → List Char → List Char × List Char
  | 0, cs => ([], cs)
  | n + 1, c :: cs =>
    if isDigitC c then
      let p := takeDigits n cs
      (c :: p.1, p.2)
    else ([], c :: cs)
  | _ + 1, [] => ([], [])

/-- Microsecond value of a fraction-digit run, right-padded to six digits
(CPython pads `gmtoff_remainder` with zeros). -/
def fracVal (ds : List Char) : Nat :=
  (ds.foldl (fun acc c => acc * 10 + dval c) 0) * 10 ^ (6 - ds.length)

/-- Optional seconds part of `%z`, regex `(:?[0-5]\d(\.\d{1,6})?)?`.
Returns (whether a colon preceded the seconds, seconds, fractional
microseconds, remaining input); `none` when the group is absent. -/
def parseZSec (cs : List Char) : Option (Bool × Nat × Nat × List Char) :=
  let p := match cs with
    | ':' :: r => (true, r)
    | _ => (false, cs)
  match parse2d05 p.2 with
  | none => none
  | some (ss, cs2) =>
    match cs2 with
    | '.' :: cs3 =>
      let q := takeDigits 6 cs3
      if q.1.isEmpty then some (p.1, ss, 0, '.' :: cs3)
      else some (p.1, ss, fracVal q.1, q.2)
    | _ => some (p.1, ss, 0, cs2)

/-- UTC offset `%z`: regex `[+-]\d\d:?[0-5]\d(:?[0-5]\d(\.\d{1,6})?)?|(?-i:Z)`,
followed by CPython's colon-consistency post-processing (mixed use of `:`
raises `ValueError`, i.e. fails).  Returns (offset seconds, offset
fractional microseconds, rest). -/
def parse_z (cs : List Char) : Option (Int × Int × List Char) :=
  match cs with
  | 'Z' :: rest => some (0, 0, rest)
  | c :: rest =>
    if c = '+' ∨ c = '-' then
      match parse2d rest with
      | none => none
      | some (hh, r1) =>
        let p := match r1 with
          | ':' :: r => (true, r)
          | _ => (false, r1)
        match parse2d05 p.2 with
        | none => none
        | some (mm, r3) =>
          match parseZSec r3 with
          | none =>
            let off : Int := (hh * 3600 + mm * 60 : Nat)
            some (if c = '-' then -off else off, 0, r3)
          | some (c2, ss, frac, r4) =>
            if p.1 = c2 then
              let off : Int := (hh * 3600 + mm * 60 + ss : Nat)
              let fr : Int := (frac : Nat)
              if c = '-' then some (-off, -fr, r4) else some (off, fr, r4)
            else none
    else none
  | [] => none

/-- The fields recovered by a successful regex match of the format. -/
structure ParsedDT where
  day : Nat
  month : Nat
  year : Nat
  hour : Nat
  minute : Nat
  second : Nat
  offUs : Int
  deriving DecidableEq, Repr

/-- Match the whole format `"%a, %d %b %Y %H:%M:%S %z"` against the input;
the entire input must be consumed (`unconverted data remains` otherwise). -/
def parseFormatRFC (cs : List Char) : Option ParsedDT := do
  let (_, cs) ← matchFirstAux 0 weekdayToks cs
  let cs ← expectChar ',' cs
  let cs ← skipWs1 cs
  let (day, cs) ← parse_d cs
  let cs ← skipWs1 cs
  let (mIdx, cs) ← matchFirstAux 0 monthToks cs
  let cs ← skipWs1 cs
  let (year, cs) ← parse_Y cs
  let cs ← skipWs1 cs
  let (hour, cs) ← parse_H cs
  let cs ← expectChar ':' cs
  let (minute, cs) ← parse_M cs
  let cs ← expectChar ':' cs
  let (second, cs) ← parse_S cs
  let cs ← skipWs1 cs
  let (offS, offFr, cs) ← parse_z cs
  if cs.isEmpty then
    some ⟨day, mIdx + 1, year, hour, minute, second, offS * 1000000 + offFr⟩
  else none

def isLeapYear (y : Nat) : Bool := y % 4 = 0 && (y % 100 ≠ 0 || y % 400 = 0)

def daysInMonth (y m : Nat) : Nat :=
  if m = 2 then (if isLeapYear y then 29 else 28)
  else if m = 4 ∨ m = 6 ∨ m = 9 ∨ m = 11 then 30
  else 31

/-- Zero-padded decimal renderings (`%02d`, `%04d`, `%06d`). -/
def pad2 (n : Nat) : String := if n < 10 then "0" ++ toString n else toString n

def pad4 (n : Nat) : String :=
  if n < 10 then "000" ++ toString n
  else if n < 100 then "00" ++ toString n
  else if n < 1000 then "0" ++ toString n
  else toString n

def pad6 (n : Nat) : String :=
  if n < 10 then "00000" ++ toString n
  else if n < 100 then "0000" ++ toString n
  else if n < 1000 then "000" ++ toString n
  else if n < 10000 then "00" ++ toString n
  else if n < 100000 then "0" ++ toString n
  else toString n

/-- `datetime.isoformat` rendering of an aware datetime's UTC offset
(`+HH:MM`, with `:SS` when offset seconds are nonzero and `.ffffff` when
offset microseconds are nonzero). -/
def offsetRender (off : Int) : String :=
  let sign := if off < 0 then "-" else "+"
  let a := off.natAbs
  let hh := a / 3600000000
  let rem := a % 3600000000
  let mm := rem / 60000000
  let rem2 := rem % 60000000
  let ss := rem2 / 1000000
  let us := rem2 % 1000000
  sign ++ pad2 hh ++ ":" ++ pad2 mm ++
    (if ss ≠ 0 ∨ us ≠ 0 then ":" ++ pad2 ss ++ (if us ≠ 0 then "." ++ pad6 us else "")
     else "")

def isoRender (p : ParsedDT) : String :=
  pad4 p.year ++ "-" ++ pad2 p.month ++ "-" ++ pad2 p.day ++ "T" ++
    pad2 p.hour ++ ":" ++ pad2 p.minute ++ ":" ++ pad2 p.second ++ offsetRender p.offUs

/-- `datetime.strptime(s, "%a, %d %b %Y %H:%M:%S %z").isoformat()`, with
`none` for any exception (regex mismatch, leftover input, or a value the
`datetime`/`timezone` constructors reject). -/
def strptimeIso (s : String) : Option String :=
  match parseFormatRFC s.data with
  | none => none
  | some p =>
    if p.year < 1 then none
    else if 59 < p.second then none
    else if daysInMonth p.year p.month < p.day then none
    else if 86399999999 < p.offUs.natAbs then none
    else some (isoRender p)

/-! ### XML element trees (`xml.etree.ElementTree`) -/

/-- A parsed XML element: tag, text content (`el.text`), children in
document order. -/
inductive Element where
  | mk (tag : String) (txt : Option String) (children : List Element)

def Element.tag : Element → String
  | .mk t _ _ => t

def Element.txt : Element → Option String
  | .mk _ x _ => x

def Element.children : Element → List Element
  | .mk _ _ c => c

/-- `el.find(tag)`: first direct child with the given tag. -/
def Element.find (e : Element) (t : String) : Option Element :=
  e.children.find? (fun c => c.tag == t)

/-- `el.findall(tag)`: all direct children with the given tag, in order. -/
def Element.findall (e : Element) (t : String) : List Element :=
  e.children.filter (fun c => c.tag == t)

/-- Helper `text(el)` of the script:
`el.text.strip() if el is not None and el.text else None`.
Note a whitespace-only text yields `some ""` (the text is truthy, its strip
is empty). -/
def text : Option Element → Option String
  | none => none
  | some el =>
    match el.txt with
    | none => none
    | some s => if s = "" then none else some (pyStrip s)

/-- Fully qualified Dublin-Core creator tag used by `item.find`. -/
def dcCreator : String := "\x7bhttp://purl.org/dc/elements/1.1/\x7dcreator"

/-! ### `fetch_posts` -/

/-- One output record of `fetch_posts` (a JSON object with these keys in
this insertion order). -/
structure Post where
  source : String
  title : Option String
  url : Option String
  date : Option String
  author : Option String
  categories : List String
  description : Option String
  deriving DecidableEq, Repr

/-- The creator test of line 38:
`creator_val` is truthy and `creator_val.strip().lower()` occurs in
`[a.lower() for a in authors]`. -/
def creatorOK (as : List String) : Option String → Bool
  | none => false
  | some creator_val =>
    if creator_val = "" then false
    else (as.map pyLower).contains (pyLower (pyStrip creator_val))

/-- The author filter of lines 37-39:
`if authors: if not creator_val or creator_val.strip().lower() not in [a.lower() for a in authors]: continue`.
Returns `true` when the item is kept (`authors` is falsy when `None` or
empty). -/
def keepItem : Option (List String) → Element → Bool
  | none, _ => true
  | some as, item =>
    if as.isEmpty then true
    else creatorOK as (text (item.find dcCreator))

/-- Field extraction of lines 41-61 for one kept item. -/
def parseItem (source_id : String) (item : Element) : Post :=
  let creator_val := text (item.find dcCreator)
  let title := text (item.find "title")
  let link := text (item.find "link")
  let pubDate := text (item.find "pubDate")
  let description := text (item.find "description")
  let categories := (item.findall "category").filterMap fun c =>
    match text (some c) with
    | some s => if s = "" then none else some s
    | none => none
  let isoDate : Option String :=
    match pubDate with
    | none => none
    | some s =>
      match strptimeIso s with
      | some iso => some iso
      | none => some s
  { source := source_id, title := title, url := link, date := isoDate,
    author := creator_val, categories := categories, description := description }

/-- Lines 28-29: `channel = root.find('channel')`;
`items = channel.findall('item') if channel is not None else []`. -/
def itemsOf (root : Element) : List Element :=
  match root.find "channel" with
  | some channel => channel.findall "item"
  | none => []

/-- `fetch_posts(url, source_id, authors)` after the fetch: its input here is
the outcome of `ET.fromstring(data)` (`none` = malformed document, which
raises `ParseError`, uncaught in `fetch_posts`). -/
def fetch_posts (parsed : Option Element) (source_id : String)
    (authors : Option (List String)) : Except String (List Post) :=
  match parsed with
  | none => Except.error "ParseError"
  | some root =>
    Except.ok (((itemsOf root).filter (keepItem authors)).map (parseItem source_id))

/-- `fetch_posts` including the fetch: `net url` is the combined outcome of
`urlopen(url).read()` (`Except.error` = fetch failure) and XML parsing. -/
def fetchPostsNet (net : String → Except String (Option Element))
    (url source_id : String) (authors : Option (List String)) :
    Except String (List Post) :=
  match net url with
  | Except.error e => Except.error e
  | Except.ok parsed => fetch_posts parsed source_id authors

/-- The claim-side author-match condition: the item has a (non-blank)
creator whose trimmed text equals, case-insensitively, some entry of the
filter list. -/
def specMatches (as : List String) (item : Element) : Prop :=
  ∃ cv, text (item.find dcCreator) = some cv ∧ cv ≠ "" ∧
    ∃ a ∈ as, pyLower (pyStrip cv) = pyLower a

instance specMatchesDec (as : List String) (item : Element) :
    Decidable (specMatches as item) :=
  match h : text (item.find dcCreator) with
  | none => isFalse (by simp [specMatches, h])
  | some cv =>
    decidable_of_iff (cv ≠ "" ∧ ∃ a ∈ as, pyLower (pyStrip cv) = pyLower a)
      (by simp [specMatches, h])

/-! ### Sorting (`all_posts.sort(key=lambda p: p.get('date') or '', reverse=True)`) -/

/-- Sort key of a post: the date string, with `''` for an absent date. -/
def sortKey (p : Post) : String := p.date.getD ""

/-- The descending comparison used by the stable sort: `a` may precede `b`
iff not `key a < key b` (Python string `<`). -/
def descLe (a b : Post) : Bool := ! lexLt (sortKey a).data (sortKey b).data

/-- `list.sort(key=..., reverse=True)`: a stable sort, descending by key. -/
def sortPosts (ps : List Post) : List Post := ps.mergeSort descLe

/-! ### JSON serialization (`json.dump(all_posts, f, ensure_ascii=False, indent=2)`) -/

def hexDigit (n : Nat) : Char := if n < 10 then Char.ofNat (48 + n) else Char.ofNat (87 + n)

/-- JSON string escaping with `ensure_ascii=False`: only `"`, `\` and
control characters below 0x20 are escaped. -/
def jsonEscapeChar (c : Char) : String :=
  if c = '"' then "\\\""
  else if c = '\\' then "\\\\"
  else if c.toNat = 8 then "\\b"
  else if c.toNat = 9 then "\\t"
  else if c.toNat = 10 then "\\n"
  else if c.toNat = 12 then "\\f"
  else if c.toNat = 13 then "\\r"
  else if c.toNat < 32 then "\\u00" ++ String.mk [hexDigit (c.toNat / 16), hexDigit (c.toNat % 16)]
  else String.mk [c]

def jsonStr (s : String) : String := "\"" ++ String.join (s.data.map jsonEscapeChar) ++ "\""

def jsonOptStr : Option String → String
  | none => "null"
  | some s => jsonStr s

/-- The `categories` array, rendered at nesting depth 2 of `indent=2`. -/
def renderCats : List String → String
  | [] => "[]"
  | cs => "[\n      " ++ String.intercalate ",\n      " (cs.map jsonStr) ++ "\n    ]"

/-- One post object, rendered at nesting depth 1 of `indent=2`; keys in the
dict-literal insertion order of lines 53-61. -/
def renderPost (p : Post) : String :=
  "\x7b\n    \"source\": " ++ jsonStr p.source ++
  ",\n    \"title\": " ++ jsonOptStr p.title ++
  ",\n    \"url\": " ++ jsonOptStr p.url ++
  ",\n    \"date\": " ++ jsonOptStr p.date ++
  ",\n    \"author\": " ++ jsonOptStr p.author ++
  ",\n    \"categories\": " ++ renderCats p.categories ++
  ",\n    \"description\": " ++ jsonOptStr p.description ++
  "\n  \x7d"

/-- The whole output array (`indent=2`). -/
def serializePosts : List Post → String
  | [] => "[]"
  | ps => "[\n  " ++ String.intercalate ",\n  " (ps.map renderPost) ++ "\n]"

/-! ### Config mode (`main`, lines 92-111) -/

/-- One entry of the YAML `blogs` list, as consumed by the loop
(`blog.get('id', 'unknown')`, `blog.get('url')`, `blog.get('authors')`,
`blog.get('limit')`). -/
structure Blog where
  id : Option String := none
  url : Option String := none
  authors : Option (List String) := none
  limit : Option Int := none
  deriving DecidableEq, Repr

/-- The loop body for one configured blog: skip without URL, catch any
fetch/parse failure (warning, zero posts), apply a positive integer limit
by `posts[:limit]`.  Returns the contributed posts and the printed lines. -/
def processBlog (net : String → Except String (Option Element)) (blog : Blog) :
    List Post × List String :=
  let blog_id := blog.id.getD "unknown"
  match blog.url with
  | none => ([], ["  ⚠️  Skipping " ++ blog_id ++ ": no URL"])
  | some url =>
    if url = "" then ([], ["  ⚠️  Skipping " ++ blog_id ++ ": no URL"])
    else
      match fetchPostsNet net url blog_id blog.authors with
      | Except.error e => ([], ["  ⚠️  Error fetching " ++ blog_id ++ ": " ++ e])
      | Except.ok posts =>
        let posts := match blog.limit with
          | some l => if 0 < l then posts.take l.toNat else posts
          | none => posts
        (posts, ["  " ++ blog_id ++ ": " ++ toString posts.length ++ " posts"])

/-- The whole config-mode loop: `all_posts` accumulation and printed lines. -/
def processBlogs (net : String → Except String (Option Element)) :
    List Blog → List Post × List String
  | [] => ([], [])
  | b :: rest =>
    let p := processBlog net b
    let q := processBlogs net rest
    (p.1 ++ q.1, p.2 ++ q.2)

/-- The sorted aggregate (line 114). -/
def mainPosts (net : String → Except String (Option Element)) (blogs : List Blog) :
    List Post :=
  sortPosts (processBlogs net blogs).1

/-- The bytes written to the output file (lines 116-117). -/
def mainOutput (net : String → Except String (Option Element)) (blogs : List Blog) :
    String :=
  serializePosts (mainPosts net blogs)

/-- Legacy single-URL mode (lines 86-91 and 113-117), wrapped by the
`__main__` handler (lines 122-127): result is (exit code, written output
file content if any).  A fetch or parse failure is uncaught in `main`, so
the process exits with code 1 before the output path is ever opened. -/
def runLegacy (net : String → Except String (Option Element))
    (url : String) (author : Option String) : Nat × Option String :=
  let authors := match author with
    | some a => if a = "" then none else some [a]
    | none => none
  match fetchPostsNet net url "custom" authors with
  | Except.error _ => (1, none)
  | Except.ok posts => (0, some (serializePosts (sortPosts posts)))

/-! ### `load_config` (lines 65-71) -/

/-- A parsed YAML document (`yaml.safe_load` result). -/
inductive Yaml where
  | null
  | bool (b : Bool)
  | int (n : Int)
  | str (s : String)
  | arr (xs : List Yaml)
  | map (kvs : List (String × Yaml))

/-- The Python exceptions `load_config` can raise. -/
inductive PyErr where
  | importError (msg : String)
  | yamlError (msg : String)
  | attributeError (msg : String)
  deriving DecidableEq, Repr

/-- `dict.get(k, default)`. -/
def dictGet (kvs : List (String × Yaml)) (k : String) (dflt : Yaml) : Yaml :=
  match kvs.find? (fun kv => kv.1 == k) with
  | some kv => kv.2
  | none => dflt

def pyyamlMsg : String := "PyYAML is required. Install with: pip install pyyaml"

/-- `load_config(config_path)`: `yamlAvailable` is whether `import yaml`
succeeded; `readDoc` is the combined outcome of reading and
`yaml.safe_load`-parsing the file.  `config.get('blogs', [])` is an
attribute access that only a mapping supports: on any other parse result
(`None` for an empty file, a list, a scalar) Python raises
`AttributeError`. -/
def load_config (yamlAvailable : Bool) (readDoc : Except String Yaml) :
    Except PyErr Yaml :=
  if yamlAvailable = false then Except.error (PyErr.importError pyyamlMsg)
  else
    match readDoc with
    | Except.error e => Except.error (PyErr.yamlError e)
    | Except.ok config =>
      match config with
      | Yaml.map kvs => Except.ok (dictGet kvs "blogs" (Yaml.arr []))
      | Yaml.null => Except.error (PyErr.attributeError "NoneType object has no attribute get")
      | _ => Except.error (PyErr.attributeError "object has no attribute get")

/-- The URLs a configuration can cause the aggregator to fetch. -/
def blogUrls (blogs : List Blog) : List String := blogs.filterMap Blog.url

/-! ### Concrete fixtures (feeds, nets, configurations) used as test data -/

def wItemAlice : Element := Element.mk "item" none
  [Element.mk dcCreator (some "Alice") [],
   Element.mk "title" (some "A1") [],
   Element.mk "pubDate" (some "Tue, 03 Jun 2025 14:22:00 +0000") []]

def wItemBob : Element := Element.mk "item" none
  [Element.mk dcCreator (some "Bob") [],
   Element.mk "title" (some "A2") [],
   Element.mk "pubDate" (some "not a date") []]

def wItemNoCreator : Element := Element.mk "item" none
  [Element.mk "title" (some "A3") []]

def wFeedA : Element := Element.mk "rss" none
  [Element.mk "channel" none [wItemAlice, wItemBob, wItemNoCreator]]

def wFeedB : Element := Element.mk "rss" none
  [Element.mk "channel" none
    [Element.mk "item" none [Element.mk "title" (some "B1") []],
     Element.mk "item" none [Element.mk "title" (some "B2") []],
     Element.mk "item" none [Element.mk "title" (some "B3") []],
     Element.mk "item" none [Element.mk "title" (some "B4") []],
     Element.mk "item" none [Element.mk "title" (some "B5") []]]]

/-- A feed document whose root has no `channel` child. -/
def wNoChannel : Element := Element.mk "rss" none []

/-- A network where both configured URLs resolve to well-formed feeds. -/
def wNet : String → Except String (Option Element) := fun u =>
  if u = "urlA" then Except.ok (some wFeedA)
  else if u = "urlB" then Except.ok (some wFeedB)
  else Except.error "HTTP Error 404: Not Found"

/-- Like `wNet` but the second URL fails to fetch. -/
def wNetFail : String → Except String (Option Element) := fun u =>
  if u = "urlA" then Except.ok (some wFeedA)
  else Except.error "HTTP Error 500: Internal Server Error"

/-- Like `wNet` except on a URL no fixture configuration mentions. -/
def wNetOther : String → Except String (Option Element) := fun u =>
  if u = "zzz" then Except.error "connection refused" else wNet u

def wBlogA : Blog := { id := some "A", url := some "urlA" }

def wBlogB : Blog := { id := some "B", url := some "urlB", limit := some 2 }

/-- The five posts source B yields before truncation. -/
def wPostsB : List Post := (itemsOf wFeedB).map (parseItem "B")

def wPost1 : Post :=
  { source := "s1", title := some "t1", url := none,
    date := some "2025-06-03T14:22:00+00:00", author := some "a1",
    categories := [], description := none }

def wPost2 : Post :=
  { source := "s2", title := some "t2", url := none,
    date := some "2025-06-03T14:22:00+00:00", author := some "a2",
    categories := [], description := none }

def wPost3 : Post :=
  { source := "s3", title := some "t3", url := none,
    date := none, author := none,
    categories := [], description := none }

/-! ### Helper lemmas -/

open scoped List

theorem toNat_ofNat_valid {n : Nat} (h : n.isValidChar) : (Char.ofNat n).toNat = n := by
  simp only [Char.ofNat, dif_pos h, Char.ofNatAux, Char.toNat, UInt32.toNat]
  simp

theorem pyWs_toLower (c : Char) : pyWs (Char.toLower c) = pyWs c := by
  by_cases h : c.toNat ≥ 65 ∧ c.toNat ≤ 90
  · have hv : (Char.ofNat (c.toNat + 32)).toNat = c.toNat + 32 :=
      toNat_ofNat_valid (Or.inl (by omega))
    have hA : pyWs (Char.ofNat (c.toNat + 32)) = false := by
      simp only [pyWs, hv]
      simp only [Bool.or_eq_false_iff, decide_eq_false_iff_not]
      omega
    have hB : pyWs c = false := by
      simp only [pyWs]
      simp only [Bool.or_eq_false_iff, decide_eq_false_iff_not]
      omega
    simp [Char.toLower, h, hA, hB]
  · simp [Char.toLower, h]

theorem dropWhile_idem (p : α → Bool) (l : List α) :
    (l.dropWhile p).dropWhile p = l.dropWhile p := by
  induction l with
  | nil => rfl
  | cons c cs ih =>
    rw [List.dropWhile_cons]
    split
    · exact ih
    · rw [List.dropWhile_cons_of_neg (by assumption)]

theorem stripL_sublist (l : List Char) : stripL l <+ l := by
  have h1 : l.dropWhile pyWs <+ l := List.dropWhile_sublist pyWs
  have h2 : (l.dropWhile pyWs).reverse.dropWhile pyWs <+ (l.dropWhile pyWs).reverse :=
    List.dropWhile_sublist pyWs
  have h3 := h2.reverse
  rw [List.reverse_reverse] at h3
  exact h3.trans h1

theorem stripL_prefix (l : List Char) : stripL l <+: l.dropWhile pyWs := by
  have h : (l.dropWhile pyWs).reverse.dropWhile pyWs <:+ (l.dropWhile pyWs).reverse :=
    List.dropWhile_suffix pyWs
  rw [show (l.dropWhile pyWs).reverse.dropWhile pyWs = ((l.dropWhile pyWs).reverse.dropWhile pyWs).reverse.reverse by simp] at h
  rw [List.reverse_suffix] at h
  exact h

theorem stripL_head_not_ws (l : List Char) :
    match (stripL l).head? with
    | some c => pyWs c = false
    | none => True := by
  have hpre := stripL_prefix l
  have hhead := List.head?_dropWhile_not pyWs l
  cases hs : (stripL l).head? with
  | none => trivial
  | some c =>
    obtain ⟨r, hr⟩ := hpre
    cases he : stripL l with
    | nil => rw [he] at hs; simp at hs
    | cons x xs =>
      rw [he] at hs
      simp at hs
      subst hs
      rw [he] at hr
      rw [← hr] at hhead
      simpa using hhead

theorem stripL_idem (l : List Char) : stripL (stripL l) = stripL l := by
  have hth : (stripL l).dropWhile pyWs = stripL l := by
    cases he : stripL l with
    | nil => rfl
    | cons x xs =>
      have := stripL_head_not_ws l
      rw [he] at this
      simp at this
      exact List.dropWhile_cons_of_neg (by simp [this])
  show (((stripL l).dropWhile pyWs).reverse.dropWhile pyWs).reverse = stripL l
  rw [hth]
  show (((l.dropWhile pyWs).reverse.dropWhile pyWs).reverse.reverse.dropWhile pyWs).reverse = _
  rw [List.reverse_reverse, dropWhile_idem]
  rfl

theorem stripL_map_toLower (l : List Char) :
    stripL (l.map Char.toLower) = (stripL l).map Char.toLower := by
  have hp : (pyWs ∘ Char.toLower) = pyWs := funext fun c => pyWs_toLower c
  show (((l.map Char.toLower).dropWhile pyWs).reverse.dropWhile pyWs).reverse = _
  rw [List.dropWhile_map, hp, ← List.map_reverse, List.dropWhile_map, hp, ← List.map_reverse]
  rfl

theorem stripL_length_lt (l : List Char) (h : stripL l ≠ l) :
    (stripL l).length < l.length := by
  have hs := stripL_sublist l
  have hle := hs.length_le
  rcases Nat.lt_or_ge (stripL l).length l.length with hlt | hge
  · exact hlt
  · exact absurd (hs.eq_of_length (Nat.le_antisymm hle hge)) h

theorem string_data_inj {s t : String} (h : s.data = t.data) : s = t :=
  congrArg String.mk h

/-- Central fact for the author filter: a filter entry carrying leading or
trailing whitespace can never equal a stripped-and-lowered creator. -/
theorem stripped_lower_ne {a : String} (h : pyStrip a ≠ a) (cv : String) :
    pyLower (pyStrip cv) ≠ pyLower a := by
  intro he
  have hd : (stripL cv.data).map Char.toLower = a.data.map Char.toLower :=
    congrArg String.data he
  have hstep := congrArg (stripL ·) hd
  simp only at hstep
  rw [stripL_map_toLower, stripL_idem, stripL_map_toLower] at hstep
  have hlen := congrArg List.length hstep
  simp only [List.length_map] at hlen
  have hda : stripL a.data ≠ a.data := by
    intro hx
    exact h (string_data_inj (by simpa [pyStrip] using hx))
  have hlt := stripL_length_lt a.data hda
  have hlen2 := congrArg List.length hd
  simp only [List.length_map] at hlen2
  omega

/-! ### Comparator lemmas for the descending date sort -/

theorem lexLt_irrefl (l : List Char) : lexLt l l = false := by
  induction l with
  | nil => rfl
  | cons c cs ih => simp [lexLt, ih]

theorem lexLt_asymm (x y : List Char) (h1 : lexLt x y = true) (h2 : lexLt y x = true) :
    False := by
  induction x generalizing y with
  | nil => cases y <;> simp [lexLt] at h1 h2
  | cons a as ih =>
    cases y with
    | nil => simp [lexLt] at h1
    | cons b bs =>
      simp only [lexLt] at h1 h2
      rcases Nat.lt_trichotomy a.toNat b.toNat with hab | hab | hab
      · rw [if_neg (by omega), if_pos hab] at h2; exact absurd h2 (by simp)
      · rw [if_neg (by omega), if_neg (by omega)] at h1 h2; exact ih bs h1 h2
      · rw [if_neg (by omega), if_pos hab] at h1; exact absurd h1 (by simp)

theorem lexLt_connex (x y z : List Char) (h : lexLt x z = true) :
    lexLt x y = true ∨ lexLt y z = true := by
  induction x generalizing y z with
  | nil =>
    cases z with
    | nil => simp [lexLt] at h
    | cons c cs =>
      cases y with
      | nil => right; simp [lexLt]
      | cons b bs => left; simp [lexLt]
  | cons a as ih =>
    cases z with
    | nil => simp [lexLt] at h
    | cons c cs =>
      cases y with
      | nil => right; simp [lexLt]
      | cons b bs =>
        simp only [lexLt] at h ⊢
        rcases Nat.lt_trichotomy a.toNat c.toNat with hac | hac | hac
        · rcases Nat.lt_trichotomy a.toNat b.toNat with hab | hab | hab
          · left; rw [if_pos hab]
          · right; rw [if_pos (by omega)]
          · right; rw [if_pos (by omega)]
        · rw [if_neg (by omega), if_neg (by omega)] at h
          rcases Nat.lt_trichotomy a.toNat b.toNat with hab | hab | hab
          · left; rw [if_pos hab]
          · rcases ih bs cs h with hl | hr
            · left; rw [if_neg (by omega), if_neg (by omega)]; exact hl
            · right; rw [if_neg (by omega), if_neg (by omega)]; exact hr
          · right; rw [if_pos (by omega)]
        · rw [if_neg (by omega), if_pos hac] at h; exact absurd h (by simp)

theorem descLe_total (a b : Post) : descLe a b || descLe b a := by
  simp only [descLe]
  cases h1 : lexLt (sortKey a).data (sortKey b).data with
  | false => simp
  | true =>
    cases h2 : lexLt (sortKey b).data (sortKey a).data with
    | false => simp
    | true => exact (lexLt_asymm _ _ h1 h2).elim

theorem descLe_trans (a b c : Post) (h1 : descLe a b) (h2 : descLe b c) : descLe a c := by
  simp only [descLe, Bool.not_eq_true'] at h1 h2 ⊢
  cases hac : lexLt (sortKey a).data (sortKey c).data with
  | false => rfl
  | true =>
    rcases lexLt_connex _ (sortKey b).data _ hac with hl | hr
    · simp [h1] at hl
    · simp [h2] at hr

theorem descLe_of_key_eq {a b : Post} (h : sortKey a = sortKey b) : descLe a b = true := by
  simp only [descLe, h, lexLt_irrefl, Bool.not_false]

theorem key_empty_of_descLe {a b : Post} (h : descLe a b = true) (ha : sortKey a = "") :
    sortKey b = "" := by
  simp only [descLe, ha, Bool.not_eq_true'] at h
  cases hb : (sortKey b).data with
  | nil => exact string_data_inj hb
  | cons c cs => rw [hb] at h; simp [lexLt] at h

theorem keepItem_eq_spec (as : List String) (h : as ≠ []) (it : Element) :
    keepItem (some as) it = decide (specMatches as it) := by
  have hne : as.isEmpty = false := by
    cases as with
    | nil => exact absurd rfl h
    | cons x xs => rfl
  show (if as.isEmpty = true then true else creatorOK as (text (it.find dcCreator)))
      = decide (specMatches as it)
  rw [hne]
  simp only [Bool.false_eq_true, if_false]
  cases hcv : text (it.find dcCreator) with
  | none => simp [creatorOK, specMatches, hcv]
  | some cv =>
    by_cases hcv0 : cv = ""
    · subst hcv0
      simp [creatorOK, specMatches, hcv]
    · rw [show creatorOK as (some cv)
          = (if cv = "" then false
             else (as.map pyLower).contains (pyLower (pyStrip cv))) from rfl,
        if_neg hcv0]
      have hiff : ((as.map pyLower).contains (pyLower (pyStrip cv)) = true)
          ↔ specMatches as it := by
        rw [List.contains_iff_exists_mem_beq]
        constructor
        · rintro ⟨b, hb, hbeq⟩
          rw [List.mem_map] at hb
          obtain ⟨a, ha, rfl⟩ := hb
          exact ⟨cv, hcv, hcv0, a, ha, by simpa using hbeq⟩
        · rintro ⟨cv2, hcv2, _, a, ha, heq⟩
          rw [hcv] at hcv2
          obtain rfl : cv = cv2 := by simpa using hcv2
          exact ⟨pyLower a, List.mem_map_of_mem pyLower ha, by simpa using heq⟩
      apply Bool.eq_iff_iff.mpr
      rw [decide_eq_true_eq]
      exact hiff

theorem fetch_posts_source (parsed : Option Element) (source_id : String)
    (authors : Option (List String)) (posts : List Post)
    (h : fetch_posts parsed source_id authors = Except.ok posts) :
    ∀ p ∈ posts, p.source = source_id := by
  cases parsed with
  | none => simp [fetch_posts] at h
  | some root =>
    simp only [fetch_posts, Except.ok.injEq] at h
    subst h
    intro p hp
    rw [List.mem_map] at hp
    obtain ⟨it, _, rfl⟩ := hp
    rfl

theorem processBlogs_append (net : String → Except String (Option Element))
    (l1 l2 : List Blog) :
    processBlogs net (l1 ++ l2) =
      ((processBlogs net l1).1 ++ (processBlogs net l2).1,
       (processBlogs net l1).2 ++ (processBlogs net l2).2) := by
  induction l1 with
  | nil => simp [processBlogs]
  | cons b rest ih => simp [processBlogs, ih]

/-! ### The claims -/

/-- C1: for every well-formed feed with N items, when a non-empty author
filter is active, `fetch_posts` returns exactly the items whose creator
text, trimmed and compared case-insensitively, equals some entry of the
filter set (items with no creator, including a blank one, are excluded);
when the filter is absent or empty, all N items are returned. -/
theorem c1_author_filter (root : Element) (source_id : String) :
    (∀ as, as ≠ [] →
        fetch_posts (some root) source_id (some as) =
          Except.ok (((itemsOf root).filter
            (fun it => decide (specMatches as it))).map (parseItem source_id))
        ∧ ∀ it, text (it.find dcCreator) = none → keepItem (some as) it = false)
    ∧ fetch_posts (some root) source_id none =
        Except.ok ((itemsOf root).map (parseItem source_id))
    ∧ fetch_posts (some root) source_id (some []) =
        Except.ok ((itemsOf root).map (parseItem source_id)) := by
  refine ⟨fun as has => ⟨?_, ?_⟩, ?_, ?_⟩
  · show Except.ok _ = Except.ok _
    rw [List.filter_congr (fun it _ => keepItem_eq_spec as has it)]
  · intro it hnone
    rw [keepItem_eq_spec as has it]
    simp [specMatches, hnone]
  · show Except.ok _ = Except.ok _
    have hf : List.filter (keepItem none) (itemsOf root) = itemsOf root :=
      List.filter_eq_self.mpr (fun a _ => rfl)
    rw [hf]
  · show Except.ok _ = Except.ok _
    have hf : List.filter (keepItem (some [])) (itemsOf root) = itemsOf root :=
      List.filter_eq_self.mpr (fun a _ => rfl)
    rw [hf]

theorem c1_author_filter_witness :
    fetch_posts (some wFeedA) "A" (some ["ALICE"]) =
      Except.ok (((itemsOf wFeedA).filter
        (fun it => decide (specMatches ["ALICE"] it))).map (parseItem "A"))
    ∧ fetch_posts (some wFeedA) "A" none =
        Except.ok ((itemsOf wFeedA).map (parseItem "A"))
    ∧ ((itemsOf wFeedA).filter (fun it => decide (specMatches ["ALICE"] it))).length = 1 := by
  refine ⟨((c1_author_filter wFeedA "A").1 ["ALICE"] (by decide)).1,
    (c1_author_filter wFeedA "A").2.1, by decide⟩

/-- C2: the output `date` field is the ISO-8601 rendering (UTC offset
included) of `pubDate` when `pubDate` parses under the fixed pattern
`"%a, %d %b %Y %H:%M:%S %z"`, the raw `pubDate` string unchanged when
parsing fails, and absent when `pubDate` is absent; a date-parse failure
never escapes (the embedding is total). -/
theorem c2_date_normalization (source_id : String) (it : Element) :
    (text (it.find "pubDate") = none → (parseItem source_id it).date = none)
    ∧ (∀ s iso, text (it.find "pubDate") = some s → strptimeIso s = some iso →
        (parseItem source_id it).date = some iso)
    ∧ (∀ s, text (it.find "pubDate") = some s → strptimeIso s = none →
        (parseItem source_id it).date = some s)
    ∧ strptimeIso "Tue, 03 Jun 2025 14:22:00 +0000" = some "2025-06-03T14:22:00+00:00"
    ∧ strptimeIso "not a date" = none := by
  refine ⟨fun h => ?_, fun s iso hs hiso => ?_, fun s hs hiso => ?_, by decide, by decide⟩
  · simp [parseItem, h]
  · simp [parseItem, hs, hiso]
  · simp [parseItem, hs, hiso]

theorem c2_date_normalization_witness :
    (parseItem "A" wItemAlice).date = some "2025-06-03T14:22:00+00:00"
    ∧ (parseItem "A" wItemBob).date = some "not a date"
    ∧ (parseItem "A" wItemNoCreator).date = none := by
  refine ⟨(c2_date_normalization "A" wItemAlice).2.1 "Tue, 03 Jun 2025 14:22:00 +0000"
      "2025-06-03T14:22:00+00:00" (by decide) (by decide),
    (c2_date_normalization "A" wItemBob).2.2.1 "not a date" (by decide) (by decide),
    (c2_date_normalization "A" wItemNoCreator).1 (by decide)⟩

/-- C6: `fetch_posts` fails (with the uncaught `ParseError` of
`ET.fromstring`) exactly when the document-level XML is malformed; a
well-formed document without a `channel` element yields `ok []`, not an
error. -/
theorem c6_parse_error_boundary (source_id : String) (authors : Option (List String)) :
    (∀ parsed, (∃ e, fetch_posts parsed source_id authors = Except.error e) ↔ parsed = none)
    ∧ (∀ root, root.find "channel" = none →
        fetch_posts (some root) source_id authors = Except.ok []) := by
  constructor
  · intro parsed
    constructor
    · rintro ⟨e, he⟩
      cases parsed with
      | none => rfl
      | some root => simp [fetch_posts] at he
    · rintro rfl
      exact ⟨"ParseError", rfl⟩
  · intro root hch
    simp [fetch_posts, itemsOf, hch]

theorem c6_parse_error_boundary_witness :
    (∃ e, fetch_posts none "A" none = Except.error e)
    ∧ fetch_posts (some wNoChannel) "A" none = Except.ok [] :=
  ⟨((c6_parse_error_boundary "A" none).1 none).mpr rfl,
    (c6_parse_error_boundary "A" none).2 wNoChannel rfl⟩

/-- C9: filter entries are lowercased but never trimmed while the creator
is trimmed, so a configured author name carrying leading or trailing
whitespace matches no item at all: under such a single-entry filter the
source yields zero posts — even when the whitespace-stripped name would
equal an item creator case-insensitively. -/
theorem c9_untrimmed_filter_entry (root : Element) (source_id : String) (a : String)
    (h : pyStrip a ≠ a) :
    fetch_posts (some root) source_id (some [a]) = Except.ok []
    ∧ ∀ it, keepItem (some [a]) it = false := by
  have hkeep : ∀ it, keepItem (some [a]) it = false := by
    intro it
    show (if ([a] : List String).isEmpty = true then true
        else creatorOK [a] (text (it.find dcCreator))) = false
    rw [if_neg (by simp)]
    cases hcv : text (it.find dcCreator) with
    | none => rfl
    | some cv =>
      show (if cv = "" then false
          else (([a] : List String).map pyLower).contains (pyLower (pyStrip cv))) = false
      by_cases hcv0 : cv = ""
      · rw [if_pos hcv0]
      · rw [if_neg hcv0]
        simp only [List.map_cons, List.map_nil, List.contains_cons, List.contains_nil,
          Bool.or_false]
        exact beq_eq_false_iff_ne.mpr (stripped_lower_ne h cv)
  refine ⟨?_, hkeep⟩
  show Except.ok _ = Except.ok _
  rw [List.filter_congr (fun it _ => (hkeep it).trans rfl), List.filter_false, List.map_nil]

theorem c9_untrimmed_filter_entry_witness :
    fetch_posts (some wFeedA) "A" (some [" alice "]) = Except.ok []
    ∧ pyStrip " alice " = "alice"
    ∧ fetch_posts (some wFeedA) "A" (some ["alice"]) = Except.ok [parseItem "A" wItemAlice] := by
  refine ⟨(c9_untrimmed_filter_entry wFeedA "A" " alice " (by decide)).1, by decide, rfl⟩

/-- C3: the final output array is sorted by the `date` string descending
with absent dates keyed as the empty string (so undated posts come after
all posts with a non-empty date), the sort is a permutation of its input,
and it is stable: posts with equal date keys keep their original relative
order. -/
theorem c3_sorted_stable (ps : List Post) :
    (sortPosts ps).Pairwise (fun a b => descLe a b = true)
    ∧ (sortPosts ps).Pairwise (fun a b => sortKey a = "" → sortKey b = "")
    ∧ (∀ a b, [a, b] <+ ps → sortKey a = sortKey b → [a, b] <+ sortPosts ps)
    ∧ sortPosts ps ~ ps := by
  have hsorted : (sortPosts ps).Pairwise (fun a b => descLe a b = true) :=
    List.sorted_mergeSort (fun a b c => descLe_trans a b c) (fun a b => descLe_total a b) ps
  refine ⟨hsorted, ?_, ?_, List.mergeSort_perm ps descLe⟩
  · exact hsorted.imp (fun h ha => key_empty_of_descLe h ha)
  · intro a b hsub hkey
    exact List.pair_sublist_mergeSort (fun a b c => descLe_trans a b c)
      (fun a b => descLe_total a b) (descLe_of_key_eq hkey) hsub

unseal List.merge List.mergeSort in
theorem c3_sorted_stable_witness :
    [wPost1, wPost2] <+ sortPosts [wPost3, wPost1, wPost2]
    ∧ sortPosts [wPost3, wPost1, wPost2] = [wPost1, wPost2, wPost3] :=
  ⟨(c3_sorted_stable [wPost3, wPost1, wPost2]).2.2.1 wPost1 wPost2
    ((List.Sublist.refl [wPost1, wPost2]).cons wPost3) rfl, by decide⟩

/-- C4: for a configured source whose `limit` is a positive integer, the
aggregator keeps exactly the first `min(limit, M)` posts in parse order
after author filtering (truncation happens before the final cross-source
sort), every emitted post carries its source's id, and per-source lists
are concatenated. -/
theorem c4_limit_truncation :
    (∀ net b rest, (processBlogs net (b :: rest)).1
        = (processBlog net b).1 ++ (processBlogs net rest).1)
    ∧ (∀ net b url posts l, b.url = some url → url ≠ "" →
        fetchPostsNet net url (b.id.getD "unknown") b.authors = Except.ok posts →
        b.limit = some l → 0 < l →
        (processBlog net b).1 = posts.take l.toNat
          ∧ (processBlog net b).1.length = min l.toNat posts.length)
    ∧ (∀ parsed source_id authors posts,
        fetch_posts parsed source_id authors = Except.ok posts →
        ∀ p ∈ posts, p.source = source_id)
    ∧ (∀ net blogs, mainPosts net blogs = sortPosts (processBlogs net blogs).1) := by
  refine ⟨fun net b rest => rfl, ?_, fetch_posts_source, fun net blogs => rfl⟩
  intro net b url posts l hurl hne hfetch hlim hpos
  have hred : (processBlog net b).1 = posts.take l.toNat := by
    simp [processBlog, hurl, hne, hfetch, hlim, hpos]
  exact ⟨hred, by rw [hred, List.length_take]⟩

theorem c4_limit_truncation_witness :
    (processBlog wNet wBlogB).1 = wPostsB.take 2
    ∧ (processBlogs wNet [wBlogA, wBlogB]).1.length = 3 + 2
    ∧ (processBlogs wNet [wBlogA, wBlogB]).1.map Post.source = ["A", "A", "A", "B", "B"] := by
  refine ⟨(c4_limit_truncation.2.1 wNet wBlogB "urlB" wPostsB 2 rfl (by decide) rfl rfl
    (by decide)).1, by decide, by decide⟩

/-- C5: a fetch or parse failure for one source is caught, logged as a
warning naming the source id, contributes zero posts, and the remaining
sources are processed as if the failing one were absent — their posts
still reach the final (sorted) output. -/
theorem c5_source_isolation (net : String → Except String (Option Element))
    (pre post : List Blog) (b : Blog) (url e : String)
    (hurl : b.url = some url) (hne : url ≠ "")
    (hfail : fetchPostsNet net url (b.id.getD "unknown") b.authors = Except.error e) :
    (processBlogs net (pre ++ b :: post)).1
      = (processBlogs net pre).1 ++ (processBlogs net post).1
    ∧ ("  ⚠️  Error fetching " ++ b.id.getD "unknown" ++ ": " ++ e)
        ∈ (processBlogs net (pre ++ b :: post)).2
    ∧ (∀ p, p ∈ (processBlogs net pre).1 ∨ p ∈ (processBlogs net post).1 →
        p ∈ mainPosts net (pre ++ b :: post)) := by
  have hb : processBlog net b
      = ([], ["  ⚠️  Error fetching " ++ b.id.getD "unknown" ++ ": " ++ e]) := by
    simp [processBlog, hurl, hne, hfail]
  have hsplit := processBlogs_append net pre (b :: post)
  have hcons : processBlogs net (b :: post)
      = ((processBlog net b).1 ++ (processBlogs net post).1,
         (processBlog net b).2 ++ (processBlogs net post).2) := rfl
  have h1 : (processBlogs net (pre ++ b :: post)).1
      = (processBlogs net pre).1 ++ (processBlogs net post).1 := by
    rw [hsplit, hcons, hb]
    simp
  refine ⟨h1, ?_, ?_⟩
  · rw [hsplit, hcons, hb]
    simp
  · intro p hp
    have hperm : mainPosts net (pre ++ b :: post) ~ (processBlogs net (pre ++ b :: post)).1 :=
      List.mergeSort_perm _ descLe
    rw [hperm.mem_iff, h1, List.mem_append]
    exact hp

theorem c5_source_isolation_witness :
    (processBlogs wNetFail [wBlogA, wBlogB]).1
      = (processBlogs wNetFail [wBlogA]).1 ++ (processBlogs wNetFail ([] : List Blog)).1
    ∧ "  ⚠️  Error fetching B: HTTP Error 500: Internal Server Error"
        ∈ (processBlogs wNetFail [wBlogA, wBlogB]).2
    ∧ (processBlogs wNetFail [wBlogA, wBlogB]).1.length = 3 := by
  have h := c5_source_isolation wNetFail [wBlogA] [] wBlogB "urlB"
    "HTTP Error 500: Internal Server Error" rfl (by decide) rfl
  exact ⟨h.1, h.2.1, by decide⟩

/-- C7 counterexample: with YAML support available and a document that
parses successfully (the empty document, `safe_load` result `None`),
`load_config` still fails — `config.get('blogs', [])` raises
`AttributeError` — instead of returning the empty sequence, so the
failure cases are not exactly `\x7bparse failure, missing capability\x7d`. -/
theorem c7_counterexample :
    (∃ e, load_config true (Except.ok Yaml.null) = Except.error e)
    ∧ load_config true (Except.ok Yaml.null) ≠ Except.ok (Yaml.arr []) := by
  constructor
  · exact ⟨PyErr.attributeError "NoneType object has no attribute get", rfl⟩
  · intro h
    simp [load_config] at h

/-- C7 (amended): `load_config` returns the `blogs` entry (default: empty
sequence) when YAML support is available and the document parses to a
mapping; it fails with an ImportError when the capability is missing, with
the parse error when the document cannot be read/parsed, and with an
AttributeError when the document parses to a non-mapping value (such as
`None` for an empty file). -/
theorem c7_load_config_amended (yamlAvailable : Bool) (readDoc : Except String Yaml) :
    (yamlAvailable = false →
      load_config yamlAvailable readDoc = Except.error (PyErr.importError pyyamlMsg))
    ∧ (∀ e, yamlAvailable = true → readDoc = Except.error e →
        load_config yamlAvailable readDoc = Except.error (PyErr.yamlError e))
    ∧ (∀ kvs, yamlAvailable = true → readDoc = Except.ok (Yaml.map kvs) →
        load_config yamlAvailable readDoc = Except.ok (dictGet kvs "blogs" (Yaml.arr [])))
    ∧ (∀ v, yamlAvailable = true → readDoc = Except.ok v → (∀ kvs, v ≠ Yaml.map kvs) →
        ∃ m, load_config yamlAvailable readDoc = Except.error (PyErr.attributeError m)) := by
  refine ⟨fun h => by simp [load_config, h],
    fun e hy hd => by subst hy; subst hd; rfl,
    fun kvs hy hd => by subst hy; subst hd; rfl,
    fun v hy hd hnm => ?_⟩
  subst hy
  subst hd
  cases v with
  | map kvs => exact absurd rfl (hnm kvs)
  | null => exact ⟨"NoneType object has no attribute get", rfl⟩
  | bool b => exact ⟨"object has no attribute get", rfl⟩
  | int n => exact ⟨"object has no attribute get", rfl⟩
  | str s => exact ⟨"object has no attribute get", rfl⟩
  | arr xs => exact ⟨"object has no attribute get", rfl⟩

theorem c7_load_config_amended_witness :
    load_config false (Except.ok (Yaml.map [])) = Except.error (PyErr.importError pyyamlMsg)
    ∧ load_config true (Except.ok (Yaml.map [("blogs", Yaml.arr [Yaml.str "x"])]))
        = Except.ok (Yaml.arr [Yaml.str "x"])
    ∧ (∃ m, load_config true (Except.ok (Yaml.str "oops"))
        = Except.error (PyErr.attributeError m)) :=
  ⟨(c7_load_config_amended false (Except.ok (Yaml.map []))).1 rfl,
    ((c7_load_config_amended true
        (Except.ok (Yaml.map [("blogs", Yaml.arr [Yaml.str "x"])]))).2.2.1
      [("blogs", Yaml.arr [Yaml.str "x"])] rfl rfl).trans rfl,
    (c7_load_config_amended true (Except.ok (Yaml.str "oops"))).2.2.2
      (Yaml.str "oops") rfl rfl (fun _ h => Yaml.noConfusion h)⟩

/-- C8: the pipeline is deterministic — two runs over identical
configuration and identical fetched feed bytes produce byte-identical
serialized JSON output (the output depends only on the configuration and
on the fetch outcomes of the configured URLs). -/
theorem c8_deterministic (blogs : List Blog)
    (net1 net2 : String → Except String (Option Element))
    (h : ∀ u ∈ blogUrls blogs, net1 u = net2 u) :
    mainOutput net1 blogs = mainOutput net2 blogs := by
  have hagg : ∀ (bl : List Blog), (∀ u ∈ blogUrls bl, net1 u = net2 u) →
      processBlogs net1 bl = processBlogs net2 bl := by
    intro bl
    induction bl with
    | nil => intro _; rfl
    | cons b rest ih =>
      intro hh
      have hrest : ∀ u ∈ blogUrls rest, net1 u = net2 u := by
        intro u hu
        refine hh u ?_
        simp only [blogUrls, List.filterMap_cons] at hu ⊢
        cases b.url with
        | none => exact hu
        | some v => exact List.mem_cons_of_mem v hu
      have hb : processBlog net1 b = processBlog net2 b := by
        cases hurl : b.url with
        | none => simp [processBlog, hurl]
        | some url =>
          have hnet : net1 url = net2 url := by
            refine hh url ?_
            simp only [blogUrls, List.filterMap_cons, hurl]
            exact List.mem_cons_self url _
          by_cases hne : url = ""
          · simp [processBlog, hurl, hne]
          · simp [processBlog, hurl, hne, fetchPostsNet, hnet]
      simp [processBlogs, hb, ih hrest]
  have := hagg blogs h
  simp [mainOutput, mainPosts, this]

theorem c8_deterministic_witness :
    mainOutput wNet [wBlogA, wBlogB] = mainOutput wNetOther [wBlogA, wBlogB]
    ∧ wNet "zzz" ≠ wNetOther "zzz" := by
  constructor
  · apply c8_deterministic
    intro u hu
    have hcase : u = "urlA" ∨ u = "urlB" := by
      simpa [blogUrls, wBlogA, wBlogB, List.filterMap_cons] using hu
    rcases hcase with rfl | rfl <;> rfl
  · intro h
    simp [wNet, wNetOther] at h

/-- C10: in legacy single-URL mode a fetch failure or an XML parse failure
is not caught per-source: the exception propagates, the process exits with
code 1, and no output file is written (the output path is only opened
after fetching). -/
theorem c10_legacy_mode_failure (net : String → Except String (Option Element))
    (url : String) (author : Option String) :
    (∀ e, net url = Except.error e → runLegacy net url author = (1, none))
    ∧ (net url = Except.ok none → runLegacy net url author = (1, none)) := by
  constructor
  · intro e he
    simp [runLegacy, fetchPostsNet, he]
  · intro he
    simp [runLegacy, fetchPostsNet, he, fetch_posts]

theorem c10_legacy_mode_failure_witness :
    runLegacy wNetFail "urlB" (some "Alice") = (1, none)
    ∧ (runLegacy wNet "urlA" none).1 = 0 :=
  ⟨(c10_legacy_mode_failure wNetFail "urlB" (some "Alice")).1
    "HTTP Error 500: Internal Server Error" rfl, rfl⟩

end BlogPosts
